import Mathlib

/-!
Shallow embedding of the `cacheset` Go package (files `set.go` and `cache.go`).

The Go type `set[T comparable] = map[T]int64` is modelled as an association
list `List (T × Int)` with unique keys (Go maps have unique keys); the stored
`Int` is the `expiresAt` UnixNano timestamp, with `0` the "never expires"
sentinel.  `time.Now().UnixNano()` is made an explicit `now : Int` argument
of every operation that reads the clock.  Locks (`sync.RWMutex`) serialize
operations in the Go code; the embedding is sequential, so each lock-wrapped
cache method is the underlying set operation on the cache's state.
-/

set_option autoImplicit false
set_option linter.unusedVariables false
set_option linter.unnecessarySimpa false
set_option linter.unusedSectionVars false

namespace CacheSet

variable {T : Type} [DecidableEq T]

/-- `set[T comparable] map[T]int64` from set.go: element to expiresAt (UnixNano). -/
abbrev GoSet (T : Type) := List (T × Int)

/-- Go map read `s[elem]`: value of the first (only, for unique keys) entry. -/
def lookup : GoSet T → T → Option Int
  | [], _ => none
  | (a, v) :: rest, k => if a = k then some v else lookup rest k

/-- Go map write `s[elem] = v`: overwrite in place if present, else add. -/
def insert : GoSet T → T → Int → GoSet T
  | [], k, v => [(k, v)]
  | (a, b) :: rest, k, v => if a = k then (a, v) :: rest else (a, b) :: insert rest k v

/-- `for k := range s`: the keys of the mapping. -/
def keys (s : GoSet T) : List T := s.map Prod.fst

/-- set.Delete (set.go): `delete(s, elem)` removes the key's entry. -/
def Delete : GoSet T → T → GoSet T
  | [], _ => []
  | (a, b) :: rest, k => if a = k then Delete rest k else (a, b) :: Delete rest k

/-- set.Expired (set.go): present, non-sentinel (`expires > 0`) and
`expires < time.Now().UnixNano()`; absent elements give false. -/
def Expired (s : GoSet T) (elem : T) (now : Int) : Bool :=
  match lookup s elem with
  | none => false
  | some expires => decide (0 < expires) && decide (expires < now)

/-- set.Expire (set.go): delete the element if it has expired, else no-op. -/
def Expire (s : GoSet T) (elem : T) (now : Int) : GoSet T :=
  if Expired s elem now then Delete s elem else s

/-- set.ExpireAll (set.go): `for k := range s { s.Expire(k) }`.  Each step
deletes only the visited key, so iterating the initial key list is the loop's
behavior. -/
def ExpireAll (s : GoSet T) (now : Int) : GoSet T :=
  (keys s).foldl (fun acc k => Expire acc k now) s

/-- set.ToSlice (set.go): slice of the set's elements, one per key. -/
def ToSlice (s : GoSet T) : List T := keys s

/-- set.Add (set.go): store `time.Now().Add(duration).UnixNano()` when
`duration > 0`, else the sentinel `0`.  `duration` is in nanoseconds, so the
stored timestamp for a positive duration is `now + duration`. -/
def Add (s : GoSet T) (elem : T) (duration now : Int) : GoSet T :=
  insert s elem (if 0 < duration then now + duration else 0)

/-- set.Clear (set.go): `for k := range s { delete(s, k) }`. -/
def Clear (s : GoSet T) : GoSet T :=
  (keys s).foldl (fun acc k => Delete acc k) s

/-- set.Contains (set.go): `_, ok := s[elem]; return ok`. -/
def Contains (s : GoSet T) (elem : T) : Bool :=
  (lookup s elem).isSome

/-- set.Len (set.go): `len(s)`, the number of entries. -/
def Len (s : GoSet T) : Nat := s.length

/-- newSet (set.go): the empty mapping. -/
def newSet : GoSet T := []

/-- Go map invariant: keys are unique (mapping semantics). -/
abbrev WF (s : GoSet T) : Prop := (keys s).Nodup

/- ### Lookup lemmas for insert / delete -/

theorem lookup_insert_self (s : GoSet T) (k : T) (v : Int) :
    lookup (insert s k v) k = some v := by
  induction s with
  | nil => simp [insert, lookup]
  | cons p rest ih =>
    obtain ⟨a, b⟩ := p
    by_cases h : a = k
    · subst h
      simp [insert, lookup]
    · simp [insert, lookup, h, ih]

theorem lookup_insert_ne (s : GoSet T) (k f : T) (v : Int) (h : k ≠ f) :
    lookup (insert s k v) f = lookup s f := by
  induction s with
  | nil => simp [insert, lookup, h]
  | cons p rest ih =>
    obtain ⟨a, b⟩ := p
    by_cases hak : a = k
    · subst hak
      simp [insert, lookup, h]
    · simp [insert, lookup, hak, ih]

theorem lookup_delete_self (s : GoSet T) (k : T) :
    lookup (Delete s k) k = none := by
  induction s with
  | nil => simp [Delete, lookup]
  | cons p rest ih =>
    obtain ⟨a, b⟩ := p
    by_cases h : a = k
    · simp [Delete, h, ih]
    · simp [Delete, lookup, h, ih]

theorem lookup_delete_ne (s : GoSet T) (k f : T) (h : k ≠ f) :
    lookup (Delete s k) f = lookup s f := by
  induction s with
  | nil => simp [Delete]
  | cons p rest ih =>
    obtain ⟨a, b⟩ := p
    by_cases hak : a = k
    · subst hak
      simp [Delete, lookup, h, ih]
    · simp [Delete, lookup, hak, ih]

theorem lookup_eq_none_iff (s : GoSet T) (k : T) :
    lookup s k = none ↔ k ∉ keys s := by
  induction s with
  | nil => simp [lookup, keys]
  | cons p rest ih =>
    obtain ⟨a, b⟩ := p
    by_cases h : a = k
    · subst h
      simp [lookup, keys]
    · rw [lookup, if_neg h, ih]
      have hka : ¬ k = a := fun hk => h hk.symm
      simp [keys, hka]

theorem lookup_isSome_iff_mem_keys (s : GoSet T) (k : T) :
    (lookup s k).isSome = true ↔ k ∈ keys s := by
  constructor
  · intro h
    by_contra hmem
    have hnone := (lookup_eq_none_iff s k).mpr hmem
    simp [hnone] at h
  · intro hmem
    cases hl : lookup s k with
    | none => exact absurd hmem ((lookup_eq_none_iff s k).mp hl)
    | some v => simp

/- ### Expire / ExpireAll lemmas -/

theorem expired_congr (s t : GoSet T) (e : T) (now : Int)
    (h : lookup s e = lookup t e) : Expired s e now = Expired t e now := by
  simp [Expired, h]

theorem expired_contains (s : GoSet T) (e : T) (now : Int)
    (h : Expired s e now = true) : Contains s e = true := by
  revert h
  simp only [Expired, Contains]
  cases lookup s e <;> simp

theorem lookup_expire_self (s : GoSet T) (k : T) (now : Int) :
    lookup (Expire s k now) k = if Expired s k now then none else lookup s k := by
  by_cases h : Expired s k now
  · simp [Expire, h, lookup_delete_self]
  · simp [Expire, h]

theorem lookup_expire_ne (s : GoSet T) (k f : T) (now : Int) (h : k ≠ f) :
    lookup (Expire s k now) f = lookup s f := by
  by_cases hx : Expired s k now
  · simp [Expire, hx, lookup_delete_ne s k f h]
  · simp [Expire, hx]

theorem lookup_expire_foldl (now : Int) (l : List T) :
    ∀ acc s : GoSet T, l.Nodup → (∀ k ∈ l, lookup acc k = lookup s k) → ∀ e : T,
      lookup (l.foldl (fun a k => Expire a k now) acc) e =
        if e ∈ l ∧ Expired s e now = true then none else lookup acc e := by
  induction l with
  | nil =>
    intro acc s _ _ e
    simp
  | cons k rest ih =>
    intro acc s hnd hsub e
    have hknot : k ∉ rest := (List.nodup_cons.mp hnd).1
    have hndr : rest.Nodup := (List.nodup_cons.mp hnd).2
    have hsub2 : ∀ j ∈ rest, lookup (Expire acc k now) j = lookup s j := by
      intro j hj
      have hjk : k ≠ j := fun hkj => hknot (hkj ▸ hj)
      rw [lookup_expire_ne acc k j now hjk]
      exact hsub j (List.mem_cons_of_mem _ hj)
    have hfold := ih (Expire acc k now) s hndr hsub2 e
    rw [List.foldl_cons, hfold]
    by_cases hek : e = k
    · subst hek
      have hExp : Expired acc e now = Expired s e now :=
        expired_congr acc s e now (hsub e (List.mem_cons_self _ _))
      by_cases hE : Expired s e now
      · simp [hknot, hE, lookup_expire_self, hExp]
      · simp [hknot, hE, lookup_expire_self, hExp]
    · have hne := lookup_expire_ne acc k e now (fun hk => hek hk.symm)
      by_cases hmem : e ∈ rest <;> by_cases hE : Expired s e now = true <;>
        simp [hek, hmem, hE, hne]

theorem lookup_expireAll (s : GoSet T) (now : Int) (hwf : WF s) (e : T) :
    lookup (ExpireAll s now) e =
      if Expired s e now = true then none else lookup s e := by
  have h := lookup_expire_foldl now (keys s) s s hwf (fun _ _ => rfl) e
  rw [ExpireAll, h]
  by_cases hE : Expired s e now = true
  · have hmem : e ∈ keys s :=
      (lookup_isSome_iff_mem_keys s e).mp (by simpa [Contains] using expired_contains s e now hE)
    simp [hE, hmem]
  · simp [hE]

/- ### Cache (cache.go): the lock-wrapped set plus lifecycle state -/

/-- The close channel of a Cache (`close chan struct` in cache.go): open
after New, closed by Close. -/
inductive ChanState
  | opened
  | closedChan
  deriving DecidableEq

/-- The cleaning goroutine spawned by New: running until it receives on the
close channel. -/
inductive SweeperState
  | running
  | stopped
  deriving DecidableEq

/-- Cache (cache.go): a set (nil after Close, modelled by `none`), the close
channel and the cleaning goroutine.  The RWMutex serializes operations; the
embedding is sequential, so the lock does not appear. -/
structure Cache (T : Type) where
  set : Option (GoSet T)
  ch : ChanState
  sweeper : SweeperState

/-- Go runtime faults the embedding can observe. -/
inductive GoFault
  | nilMapWrite
  deriving DecidableEq

/-- What a call to Close does: return normally, panic, or block forever. -/
inductive CloseOutcome (T : Type) where
  | ok (c : Cache T)
  | panicked
  | deadlocked

/-- New (cache.go): fresh empty set, open close channel, cleaning goroutine
started.  `cleanInterval` only feeds the ticker; it does not affect the
state visible to the claims. -/
def New (T : Type) (cleanInterval : Int) : Cache T :=
  ⟨some [], ChanState.opened, SweeperState.running⟩

/-- Cache.Close (cache.go): send the stop signal on `c.close`, then
`close(c.close)`, then `c.set = nil`.
The unbuffered send panics if the channel is already closed, blocks forever
if it is open with no goroutine receiving, and otherwise hands off to the
sweeper's `case <-c.close: return`; then the channel is closed and the set
becomes nil. -/
def Cache.Close (c : Cache T) : CloseOutcome T :=
  match c.ch with
  | ChanState.closedChan => CloseOutcome.panicked
  | ChanState.opened =>
    match c.sweeper with
    | SweeperState.stopped => CloseOutcome.deadlocked
    | SweeperState.running =>
        CloseOutcome.ok ⟨none, ChanState.closedChan, SweeperState.stopped⟩

/-- Cache.Contains (cache.go): RLock; `c.set.Contains(elem)`.  Reading a nil
Go map yields the zero value with ok=false, so a nil set reads as empty. -/
def Cache.Contains (c : Cache T) (elem : T) : Bool :=
  match c.set with
  | none => false
  | some s => CacheSet.Contains s elem

/-- Cache.Exists (cache.go): RLock; `c.set.Contains(elem)` — the same body as
Cache.Contains. -/
def Cache.Exists (c : Cache T) (elem : T) : Bool :=
  match c.set with
  | none => false
  | some s => CacheSet.Contains s elem

/-- Cache.Len (cache.go): RLock; `c.set.Len()`.  `len` of a nil map is 0. -/
def Cache.Len (c : Cache T) : Nat :=
  match c.set with
  | none => 0
  | some s => CacheSet.Len s

/-- Cache.ToSlice (cache.go): RLock; `c.set.ToSlice()`.  Ranging over a nil
map yields no keys, so the result is empty. -/
def Cache.ToSlice (c : Cache T) : List T :=
  match c.set with
  | none => []
  | some s => CacheSet.ToSlice s

/-- Cache.Delete (cache.go): Lock; `c.set.Delete(elem)`.  `delete` on a nil
map is a no-op. -/
def Cache.Delete (c : Cache T) (elem : T) : Cache T :=
  { c with set := match c.set with
      | none => none
      | some s => some (CacheSet.Delete s elem) }

/-- Cache.Clear (cache.go): Lock; `c.set.Clear()`.  Ranging over a nil map
does nothing. -/
def Cache.Clear (c : Cache T) : Cache T :=
  { c with set := match c.set with
      | none => none
      | some s => some (CacheSet.Clear s) }

/-- Cache.Expire (cache.go): Lock; `c.set.Expire(elem)`.  On a nil set,
Expired reads nothing and reports false, so nothing is deleted. -/
def Cache.Expire (c : Cache T) (elem : T) (now : Int) : Cache T :=
  { c with set := match c.set with
      | none => none
      | some s => some (CacheSet.Expire s elem now) }

/-- Cache.ExpireAll (cache.go): Lock; `c.set.ExpireAll()`.  Ranging over a
nil map does nothing. -/
def Cache.ExpireAll (c : Cache T) (now : Int) : Cache T :=
  { c with set := match c.set with
      | none => none
      | some s => some (CacheSet.ExpireAll s now) }

/-- Cache.Add (cache.go): Lock; `c.set.Add(elem, duration)`.  Writing to a
nil Go map panics (assignment to entry in nil map). -/
def Cache.Add (c : Cache T) (elem : T) (duration now : Int) :
    Except GoFault (Cache T) :=
  match c.set with
  | none => Except.error GoFault.nilMapWrite
  | some s => Except.ok { c with set := some (CacheSet.Add s elem duration now) }

/- ### Go map aliasing, for CopySet

In Go a map value is a reference to a shared map object, so returning
`c.set` would alias the live structure while returning a copy decouples the
caller from it.  A store of map objects makes that distinction visible:
references are indices into the store. -/

/-- The store of live Go map objects; a Go map value is an index into it. -/
abbrev Store (T : Type) := List (GoSet T)

/-- Dereference: the contents of the map object `r` points to. -/
def readRef (st : Store T) (r : Nat) : GoSet T := st.getD r []

/-- Mutate in place the map object `r` points to. -/
def writeRef (st : Store T) (r : Nat) (m : GoSet T) : Store T := st.set r m

/-- `make(map[T]int64)`: a fresh map object at a reference distinct from
every existing one. -/
def alloc (st : Store T) (m : GoSet T) : Store T × Nat := (st ++ [m], st.length)

/-- A Cache as CopySet sees it: the `set` field is a reference to a map
object in the store (the lifecycle fields play no role here). -/
structure CacheRef (T : Type) where
  store : Store T
  setRef : Nat

/-- Modelled from the spec: `set.Copy`, called by `Cache.CopySet` (cache.go,
`return c.set.Copy()`), is not among the provided source files.  The spec
says CopySet "returns an independent snapshot mapping (element → expiresAt)
decoupled from the live structure": the snapshot carries the same
element-to-expiresAt contents, and the decoupling comes from placing those
contents into a freshly allocated map object (see `CopySet`). -/
def setCopy (m : GoSet T) : GoSet T := m

/-- Cache.CopySet (cache.go): RLock; `return c.set.Copy()`.  The returned
reference points at a fresh map object holding a copy of the contents. -/
def CopySet (c : CacheRef T) : CacheRef T × Nat :=
  let m := readRef c.store c.setRef
  let (st, r) := alloc c.store (setCopy m)
  (⟨st, c.setRef⟩, r)

/-- The mutating Cache operations (each Lock-wrapped in cache.go).  They all
rewrite the map object the cache's `set` field points to. -/
inductive CacheOp (T : Type) where
  | add (elem : T) (duration now : Int)
  | del (elem : T)
  | expire (elem : T) (now : Int)
  | expireAll (now : Int)
  | clear

/-- Run one mutating Cache operation against the store. -/
def applyOp (c : CacheRef T) (op : CacheOp T) : CacheRef T :=
  let m := readRef c.store c.setRef
  let m2 := match op with
    | CacheOp.add elem d now => Add m elem d now
    | CacheOp.del elem => Delete m elem
    | CacheOp.expire elem now => Expire m elem now
    | CacheOp.expireAll now => ExpireAll m now
    | CacheOp.clear => Clear m
  ⟨writeRef c.store c.setRef m2, c.setRef⟩

theorem readRef_alloc_new (st : Store T) (m : GoSet T) :
    readRef (st ++ [m]) st.length = m := by
  induction st with
  | nil => rfl
  | cons a rest ih => simpa [readRef] using ih

theorem readRef_write_ne (st : Store T) (i j : Nat) (m : GoSet T) (h : i ≠ j) :
    readRef (writeRef st i m) j = readRef st j := by
  induction st generalizing i j with
  | nil => rfl
  | cons a rest ih =>
    cases i with
    | zero =>
      cases j with
      | zero => exact absurd rfl h
      | succ j2 => rfl
    | succ i2 =>
      cases j with
      | zero => rfl
      | succ j2 =>
        have h2 : i2 ≠ j2 := fun hh => h (by rw [hh])
        simpa [readRef, writeRef] using ih i2 j2 h2

/- ### The claims -/

/-- Claim C1: CopySet returns a mapping equal to the cache's current
element-to-expiresAt contents and independent of the live structure: a
mutation of the cache after CopySet (Add, Delete, Expire, ExpireAll, Clear)
does not change the mapping CopySet previously returned. -/
theorem copySet_snapshot_independent (c : CacheRef T)
    (h : c.setRef < c.store.length) :
    (∀ e, lookup (readRef (CopySet c).1.store (CopySet c).2) e =
        lookup (readRef c.store c.setRef) e) ∧
    (∀ op : CacheOp T,
      readRef (applyOp (CopySet c).1 op).store (CopySet c).2 =
        readRef (CopySet c).1.store (CopySet c).2) := by
  have hfst : (CopySet c).1 =
      ⟨c.store ++ [readRef c.store c.setRef], c.setRef⟩ := rfl
  have hsnd : (CopySet c).2 = c.store.length := rfl
  constructor
  · intro e
    rw [hfst, hsnd, readRef_alloc_new]
  · intro op
    rw [hfst, hsnd]
    exact readRef_write_ne _ _ _ _ (Nat.ne_of_lt h)

/-- Concrete run of `copySet_snapshot_independent`: a one-object store with
the single entry (0, 5); the snapshot agrees with the contents and survives
a Delete of 0 unchanged. -/
theorem copySet_snapshot_independent_witness :
    lookup (readRef (CopySet (⟨[[((0 : Nat), (5 : Int))]], 0⟩ : CacheRef Nat)).1.store
        (CopySet (⟨[[((0 : Nat), (5 : Int))]], 0⟩ : CacheRef Nat)).2) 0 =
      lookup (readRef ([[((0 : Nat), (5 : Int))]] : Store Nat) 0) 0 ∧
    readRef (applyOp (CopySet (⟨[[((0 : Nat), (5 : Int))]], 0⟩ : CacheRef Nat)).1
        (CacheOp.del 0)).store
        (CopySet (⟨[[((0 : Nat), (5 : Int))]], 0⟩ : CacheRef Nat)).2 =
      readRef (CopySet (⟨[[((0 : Nat), (5 : Int))]], 0⟩ : CacheRef Nat)).1.store
        (CopySet (⟨[[((0 : Nat), (5 : Int))]], 0⟩ : CacheRef Nat)).2 :=
  ⟨(copySet_snapshot_independent ⟨[[((0 : Nat), (5 : Int))]], 0⟩ (by decide)).1 0,
   (copySet_snapshot_independent ⟨[[((0 : Nat), (5 : Int))]], 0⟩ (by decide)).2
     (CacheOp.del 0)⟩

/-- Claim C2, as the code actually behaves (the claim itself is violated):
the first Close succeeds, and a second Close on the same Cache sends on the
already-closed close channel, which is a Go runtime panic — not a no-op. -/
theorem close_twice_panics :
    ∃ c1 : Cache Nat, (CacheSet.New Nat 1000).Close = CloseOutcome.ok c1 ∧
      c1.Close = CloseOutcome.panicked :=
  ⟨⟨none, ChanState.closedChan, SweeperState.stopped⟩, rfl, rfl⟩

/-- Claim C3: Contains is true iff the element is a key of the backing
mapping, independently of its expiry timestamp; in particular an element
whose expiry has passed but which has not yet been removed still satisfies
Contains. -/
theorem contains_pure_membership (s : GoSet T) (e : T) :
    (Contains s e = true ↔ e ∈ keys s) ∧
    (∀ now : Int, Expired s e now = true → Contains s e = true) := by
  constructor
  · simpa [Contains] using lookup_isSome_iff_mem_keys s e
  · intro now h
    exact expired_contains s e now h

/-- Concrete run of `contains_pure_membership`: the element 1 expired at
time 10 (entry (1, 5)) yet Contains still reports it. -/
theorem contains_pure_membership_witness :
    Contains [((1 : Nat), (5 : Int))] 1 = true :=
  (contains_pure_membership [((1 : Nat), (5 : Int))] 1).2 10 (by decide)

/-- Claim C4: Expired is true iff the element is present with a non-sentinel
(strictly positive) stored expiry that is strictly before now; an absent
element is reported not expired; and an element added with duration ≤ 0
(sentinel 0) is never expired, at every later time. -/
theorem expired_characterization (s : GoSet T) (e : T) (now : Int) :
    (Expired s e now = true ↔
      ∃ v, lookup s e = some v ∧ 0 < v ∧ v < now) ∧
    (lookup s e = none → Expired s e now = false) ∧
    (∀ duration addNow later : Int, duration ≤ 0 →
      Expired (Add s e duration addNow) e later = false) := by
  refine ⟨?_, ?_, ?_⟩
  · cases hl : lookup s e with
    | none => simp [Expired, hl]
    | some v => simp [Expired, hl]
  · intro h
    simp [Expired, h]
  · intro duration addNow later hd
    have hl : lookup (Add s e duration addNow) e = some 0 := by
      simp [Add, lookup_insert_self, not_lt.mpr hd]
    simp [Expired, hl]

/-- Concrete run of `expired_characterization`: adding 0 with duration -1
stores the sentinel, and much later the element is still not expired. -/
theorem expired_characterization_witness :
    Expired (Add ([] : GoSet Nat) 0 (-1) 5) 0 1000000 = false :=
  (expired_characterization ([] : GoSet Nat) 0 0).2.2 (-1) 5 1000000 (by decide)

/-- Claim C5: Add stores the sentinel 0 when duration ≤ 0 and now + duration
when duration > 0, overwriting any previous entry (re-adding resets the
expiry); and immediately after Add with duration > 0, Contains is true and
Expired is false. -/
theorem add_inserts_and_fresh (s : GoSet T) (e : T) (duration now : Int) :
    lookup (Add s e duration now) e =
      some (if 0 < duration then now + duration else 0) ∧
    (0 < duration →
      Contains (Add s e duration now) e = true ∧
      Expired (Add s e duration now) e now = false) := by
  constructor
  · exact lookup_insert_self s e _
  · intro hd
    have hl : lookup (Add s e duration now) e = some (now + duration) := by
      simp [Add, lookup_insert_self, hd]
    refine ⟨by simp [Contains, hl], ?_⟩
    simp only [Expired, hl]
    simp
    omega

/-- Concrete run of `add_inserts_and_fresh`: right after adding 0 for 7
nanoseconds at time 100, it is contained and not expired. -/
theorem add_inserts_and_fresh_witness :
    Contains (Add ([] : GoSet Nat) 0 7 100) 0 = true ∧
    Expired (Add ([] : GoSet Nat) 0 7 100) 0 100 = false :=
  (add_inserts_and_fresh ([] : GoSet Nat) 0 7 100).2 (by decide)

/-- Claim C6: ExpireAll removes exactly the elements Expired at call time —
an expired element's entry becomes absent, and every other element keeps its
entry with the stored timestamp unchanged. -/
theorem expireAll_removes_exactly_expired (s : GoSet T) (now : Int)
    (hwf : WF s) (e : T) :
    lookup (ExpireAll s now) e =
      if Expired s e now = true then none else lookup s e :=
  lookup_expireAll s now hwf e

/-- Concrete run of `expireAll_removes_exactly_expired` at time 10 on
entries (0, 5), (1, 0), (2, 100): the expired 0 is removed while the
never-expiring 1 and the not-yet-expired 2 keep their timestamps. -/
theorem expireAll_removes_exactly_expired_witness :
    lookup (ExpireAll [((0 : Nat), (5 : Int)), (1, 0), (2, 100)] 10) 0 = none ∧
    lookup (ExpireAll [((0 : Nat), (5 : Int)), (1, 0), (2, 100)] 10) 1 = some 0 ∧
    lookup (ExpireAll [((0 : Nat), (5 : Int)), (1, 0), (2, 100)] 10) 2 = some 100 := by
  refine ⟨?_, ?_, ?_⟩
  · have h := expireAll_removes_exactly_expired
      [((0 : Nat), (5 : Int)), (1, 0), (2, 100)] 10 (by decide) 0
    simpa [show Expired [((0 : Nat), (5 : Int)), (1, 0), (2, 100)] 0 10 = true by decide]
      using h
  · have h := expireAll_removes_exactly_expired
      [((0 : Nat), (5 : Int)), (1, 0), (2, 100)] 10 (by decide) 1
    simpa [show Expired [((0 : Nat), (5 : Int)), (1, 0), (2, 100)] 1 10 = false by decide,
      show lookup [((0 : Nat), (5 : Int)), (1, 0), (2, 100)] 1 = some 0 by decide] using h
  · have h := expireAll_removes_exactly_expired
      [((0 : Nat), (5 : Int)), (1, 0), (2, 100)] 10 (by decide) 2
    simpa [show Expired [((0 : Nat), (5 : Int)), (1, 0), (2, 100)] 2 10 = false by decide,
      show lookup [((0 : Nat), (5 : Int)), (1, 0), (2, 100)] 2 = some 100 by decide] using h

/-- Claim C7: Len equals the length of ToSlice, and ToSlice holds exactly
the keys currently present in the mapping, each exactly once. -/
theorem len_eq_toSlice_length (s : GoSet T) (hwf : WF s) :
    Len s = (ToSlice s).length ∧
    (∀ e, e ∈ ToSlice s ↔ Contains s e = true) ∧
    (ToSlice s).Nodup := by
  refine ⟨?_, ?_, hwf⟩
  · simp [Len, ToSlice, keys]
  · intro e
    rw [ToSlice]
    simpa [Contains] using (lookup_isSome_iff_mem_keys s e).symm

/-- Concrete run of `len_eq_toSlice_length` on entries (0, 1), (1, 2). -/
theorem len_eq_toSlice_length_witness :
    Len [((0 : Nat), (1 : Int)), (1, 2)] =
      (ToSlice [((0 : Nat), (1 : Int)), (1, 2)]).length ∧
    (0 ∈ ToSlice [((0 : Nat), (1 : Int)), (1, 2)] ↔
      Contains [((0 : Nat), (1 : Int)), (1, 2)] 0 = true) ∧
    (ToSlice [((0 : Nat), (1 : Int)), (1, 2)]).Nodup :=
  ⟨(len_eq_toSlice_length [((0 : Nat), (1 : Int)), (1, 2)] (by decide)).1,
   (len_eq_toSlice_length [((0 : Nat), (1 : Int)), (1, 2)] (by decide)).2.1 0,
   (len_eq_toSlice_length [((0 : Nat), (1 : Int)), (1, 2)] (by decide)).2.2⟩

/-- Claim C8: Exists is an exact alias of Contains — for every cache state
and element the two return the same boolean (their bodies both call the
set's Contains). -/
theorem exists_is_contains (c : Cache T) (e : T) :
    Cache.Exists c e = Cache.Contains c e := rfl

/-- Claim C9: after Close succeeds the internal set is nil; every read or
removal then behaves as on an empty set — Contains, Exists false, Len 0,
ToSlice empty, and Delete, Clear, Expire, ExpireAll no-ops — while Add hits
the nil-map-write fault; only Add fails after close. -/
theorem closed_cache_ops (c c2 : Cache T)
    (h : Cache.Close c = CloseOutcome.ok c2)
    (e : T) (duration now now2 now3 : Int) :
    c2.set = none ∧
    Cache.Contains c2 e = false ∧
    Cache.Exists c2 e = false ∧
    Cache.Len c2 = 0 ∧
    Cache.ToSlice c2 = [] ∧
    Cache.Delete c2 e = c2 ∧
    Cache.Clear c2 = c2 ∧
    Cache.Expire c2 e now = c2 ∧
    Cache.ExpireAll c2 now2 = c2 ∧
    Cache.Add c2 e duration now3 = Except.error GoFault.nilMapWrite := by
  obtain ⟨st, ch, sw⟩ := c
  cases ch <;> cases sw <;> simp [Cache.Close] at h
  subst h
  exact ⟨rfl, rfl, rfl, rfl, rfl, rfl, rfl, rfl, rfl, rfl⟩

/-- Concrete run of `closed_cache_ops`: close a fresh Cache over Nat and
check the nil set, a failing Add, and an empty read. -/
theorem closed_cache_ops_witness :
    (⟨none, ChanState.closedChan, SweeperState.stopped⟩ : Cache Nat).set = none ∧
    Cache.Add (⟨none, ChanState.closedChan, SweeperState.stopped⟩ : Cache Nat) 0 1 2 =
      Except.error GoFault.nilMapWrite ∧
    Cache.Contains (⟨none, ChanState.closedChan, SweeperState.stopped⟩ : Cache Nat) 0 =
      false :=
  ⟨(closed_cache_ops (CacheSet.New Nat 1000) _ rfl 0 1 2 3 4).1,
   (closed_cache_ops (CacheSet.New Nat 1000) _ rfl 0 1 2 3 4).2.2.2.2.2.2.2.2.2,
   (closed_cache_ops (CacheSet.New Nat 1000) _ rfl 0 1 2 3 4).2.1⟩

/-- Claim C10: per-element operations do not disturb other elements — for
distinct e and f, Add, Delete and Expire on e leave f's entry (membership
and stored timestamp) unchanged. -/
theorem ops_frame_other_elements (s : GoSet T) (e f : T)
    (duration now now2 : Int) (h : e ≠ f) :
    lookup (Add s e duration now) f = lookup s f ∧
    lookup (Delete s e) f = lookup s f ∧
    lookup (Expire s e now2) f = lookup s f :=
  ⟨lookup_insert_ne s e f _ h, lookup_delete_ne s e f h,
   lookup_expire_ne s e f now2 h⟩

/-- Concrete run of `ops_frame_other_elements`: operations on 0 leave the
entry of 1 untouched. -/
theorem ops_frame_other_elements_witness :
    lookup (Add [((1 : Nat), (3 : Int))] 0 5 10) 1 =
      lookup [((1 : Nat), (3 : Int))] 1 ∧
    lookup (Delete [((1 : Nat), (3 : Int))] 0) 1 =
      lookup [((1 : Nat), (3 : Int))] 1 ∧
    lookup (Expire [((1 : Nat), (3 : Int))] 0 10) 1 =
      lookup [((1 : Nat), (3 : Int))] 1 :=
  ops_frame_other_elements [((1 : Nat), (3 : Int))] 0 1 5 10 10 (by decide)

end CacheSet
